import Mathlib

/-!
Verification development for the s4cmb time-ordered-data (TOD) projection
engine (`s4cmb/tod.py` and `time_ordered_data/tod.py`).

Embedding conventions:
* numpy float arrays are embedded as exact rationals (`ℚ`); pixel-indexed
  arrays become total functions `ℕ → ℚ` (the code only reads indices below
  `npixsky`), sample-indexed arrays become `List ℚ`;
* transcendental functions (`np.sin`, `np.cos`, `np.tan`) and the irrational
  conversion constants `d2r = π/180`, `am2rad = π/10800` are abstracted as
  parameters, so every theorem holds for the actual real-valued functions;
* the few collaborators that live outside the two source files (the healpy
  tessellation resolver `hp.ang2pix`, the `input_sky.LamCyl` projection and
  the Fortran accumulation kernel `tod_f.tod2map_alldet_f`) are modelled from
  the spec, and marked as such in their doc comments;
* fatal `assert`/`raise` paths are embedded with `Except String`.
-/

namespace S4cmb

/-! ## Pixel indexer (`build_pointing_matrix`, s4cmb/tod.py lines 799-897) -/

/-- `np.searchsorted(a, v)` (side='left'): for a sorted list, the insertion
index of `v`, i.e. the number of entries strictly below `v`. -/
def searchsorted (a : List ℤ) (v : ℤ) : ℕ :=
  a.countP (fun x => decide (x < v))

/-- The healpix branch of `build_pointing_matrix` for one sample: local index
of global pixel `g` inside `obspix`, computed via `searchsorted`; the sample is
kept only when the insertion index is in range and points back at `g`
(lines 868-879), otherwise the sentinel `-1` is assigned. -/
def localIndexHealpix (obspix : List ℤ) (g : ℤ) : ℤ :=
  let i := searchsorted obspix g
  if i < obspix.length ∧ obspix.getD i (g + 1) = g then (i : ℤ) else -1

/-- Healpix branch of `build_pointing_matrix` over a whole sample vector: if
some sample falls outside `obspix` and `cut_outliers` is disabled, the code
raises; otherwise outliers are assigned `-1`. -/
def bpm_healpix (obspix : List ℤ) (cut_outliers : Bool) (index_global : List ℤ) :
    Except String (List ℤ) :=
  let index_local := index_global.map (localIndexHealpix obspix)
  if index_local.any (fun x => x == -1) && !cut_outliers then
    Except.error "Pixels outside patch boundaries. Patch width insufficient"
  else
    Except.ok index_local

/-- `np.int_` applied to a float: truncation toward zero. -/
def truncQ (q : ℚ) : ℤ :=
  if 0 ≤ q then ⌊q⌋ else ⌈q⌉

/-- One grid coordinate of the flat branch of `build_pointing_matrix`:
`np.int_((v - (vmin - pixel_size/2)) / pixel_size)` (lines 883-887). -/
def gridIndex (vmin pixel_size v : ℚ) : ℤ :=
  truncQ ((v - (vmin - pixel_size / 2)) / pixel_size)

/-- The flat branch of `build_pointing_matrix` for one sample (lines 880-893):
quantize the plane coordinates onto the square grid, assigning the sentinel
`-1` when either grid coordinate falls outside `[0, npix_per_row)`. -/
def localIndexFlat (xmin ymin pixel_size : ℚ) (npix_per_row : ℕ) (x y : ℚ) : ℤ :=
  let ix := gridIndex xmin pixel_size x
  let iy := gridIndex ymin pixel_size y
  if ix < 0 ∨ (npix_per_row : ℤ) ≤ ix ∨ iy < 0 ∨ (npix_per_row : ℤ) ≤ iy then -1
  else ix * npix_per_row + iy

/-- Flat branch of `build_pointing_matrix` over whole coordinate vectors. -/
def bpm_flat (xmin ymin pixel_size : ℚ) (npix_per_row : ℕ) (xs ys : List ℚ) :
    List ℤ :=
  List.zipWith (localIndexFlat xmin ymin pixel_size npix_per_row) xs ys

/-- Modelled from the spec: `input_sky.LamCyl` (module `input_sky` is not part
of the sources), the "fixed cylindrical-equal-area-style projection" of §4.3:
`x` is the right ascension, `y` the sine of the declination. -/
def LamCyl (sinF : ℚ → ℚ) (ra dec : List ℚ) : List ℚ × List ℚ :=
  (ra, dec.map sinF)

/-! ## Sky map accumulator (`OutputSkyMap`, s4cmb/tod.py lines 503-708) -/

/-- The `OutputSkyMap` object: the seven normal-equation accumulator arrays,
the hit counts, and the `idet` attribute created by `get_QU`. -/
@[ext]
structure OutputSkyMap where
  projection : String
  obspix : Option (List ℤ)
  npixsky : ℕ
  d : ℕ → ℚ
  dc : ℕ → ℚ
  ds : ℕ → ℚ
  w : ℕ → ℚ
  cc : ℕ → ℚ
  cs : ℕ → ℚ
  ss : ℕ → ℚ
  nhit : ℕ → ℤ
  idet : Option (ℕ → ℚ)

/-- `initialise_sky_maps`: all accumulator arrays start at zero (`idet` does
not exist yet on a fresh object). -/
def emptyOutputSkyMap (projection : String) (obspix : Option (List ℤ))
    (npixsky : ℕ) : OutputSkyMap :=
  { projection := projection
    obspix := obspix
    npixsky := npixsky
    d := fun _ => 0
    dc := fun _ => 0
    ds := fun _ => 0
    w := fun _ => 0
    cc := fun _ => 0
    cs := fun _ => 0
    ss := fun _ => 0
    nhit := fun _ => 0
    idet := none }

/-- `np.finfo(np.float32).eps`, the single-precision machine epsilon used as
the singularity threshold of `get_QU`. -/
def epsF32 : ℚ := 1 / 2 ^ 23

/-- `get_I` (lines 582-596): per pixel, `d / w` where `w > 0`, else `0`. -/
def get_I (m : OutputSkyMap) : ℕ → ℚ :=
  fun p => if 0 < m.w p then m.d p / m.w p else 0

/-- The polarization determinant `testcc = cc * ss - cs * cs` of `get_QU`. -/
def testccF (m : OutputSkyMap) : ℕ → ℚ :=
  fun p => m.cc p * m.ss p - m.cs p * m.cs p

/-- The inverse-determinant array of `get_QU`: `1/testcc` on nonzero entries,
then forced to `0` wherever `|testcc|` is below the single-precision epsilon. -/
def idetF (m : OutputSkyMap) : ℕ → ℚ :=
  fun p =>
    let t := testccF m p
    let i0 := if t ≠ 0 then 1 / t else 0
    if |t| < epsF32 then 0 else i0

/-- `get_QU` (lines 598-633): solves the per-pixel 2x2 system through the
explicit inverse; the method stores `idet` on the object (`self.idet = idet`)
and returns the `Q` and `U` arrays, so it is embedded as a function returning
the updated object together with the two maps. -/
def get_QU (m : OutputSkyMap) : OutputSkyMap × (ℕ → ℚ) × (ℕ → ℚ) :=
  ({ m with idet := some (idetF m) },
   fun p => idetF m p * (m.ss p * m.dc p - m.cs p * m.ds p),
   fun p => idetF m p * (-(m.cs p) * m.dc p + m.cc p * m.ds p))

/-- `get_IQU` (lines 635-658): intensity and polarization solved
independently and returned together. -/
def get_IQU (m : OutputSkyMap) : OutputSkyMap × (ℕ → ℚ) × (ℕ → ℚ) × (ℕ → ℚ) :=
  ((get_QU m).1, get_I m, (get_QU m).2.1, (get_QU m).2.2)

/-- `coadd` (lines 660-708) with its default `to_coadd` list
`'d dc ds w cc cs ss nhit'`: requires identical `obspix`, then adds the other
accumulator's arrays element-wise into this one. -/
def coadd (m other : OutputSkyMap) : Except String OutputSkyMap :=
  if m.obspix = other.obspix then
    Except.ok
      { m with
        d := fun p => m.d p + other.d p
        dc := fun p => m.dc p + other.dc p
        ds := fun p => m.ds p + other.ds p
        w := fun p => m.w p + other.w p
        cc := fun p => m.cc p + other.cc p
        cs := fun p => m.cs p + other.cs p
        ss := fun p => m.ss p + other.ss p
        nhit := fun p => m.nhit p + other.nhit p }
  else Except.error "To add maps together, they must have the same obspix!"

/-! ## Accumulation kernel (`tod_f.tod2map_alldet_f`) -/

/-- One (pair, sample) slot of the data handed to the accumulation kernel by
`tod2map`: the local pixel index, the pair's stored polarization angle, the
two detector timestream values, the pair's sum/difference noise weights and
the timestream mask value. -/
structure KernelSample where
  pix : ℤ
  polang : ℚ
  d1 : ℚ
  d2 : ℚ
  wsum : ℚ
  wdiff : ℚ
  mask : ℤ

/-- Modelled from the spec: one accumulation step of the external Fortran
kernel `tod_f.tod2map_alldet_f` (§4.5, §6 of the spec; the kernel itself is
not part of the sources). A masked sample, or one carrying the sentinel pixel
index, contributes nothing; otherwise the sample adds its noise-weighted
sum-timestream contribution to `d`/`w`, its noise-weighted
difference-timestream contribution (split into cosine/sine components of twice
the polarization angle) to `dc`/`ds` and the second moments `cc`/`cs`/`ss`,
and increments the hit counter. -/
def tod2map_step (cosF sinF : ℚ → ℚ) (m : OutputSkyMap) (s : KernelSample) :
    OutputSkyMap :=
  if s.mask ≠ 0 ∧ 0 ≤ s.pix then
    let p := s.pix.toNat
    let c := cosF (2 * s.polang)
    let sn := sinF (2 * s.polang)
    let dsum := (s.d1 + s.d2) / 2
    let ddiff := (s.d1 - s.d2) / 2
    { m with
      d := Function.update m.d p (m.d p + s.wsum * dsum)
      w := Function.update m.w p (m.w p + s.wsum)
      dc := Function.update m.dc p (m.dc p + s.wdiff * ddiff * c)
      ds := Function.update m.ds p (m.ds p + s.wdiff * ddiff * sn)
      cc := Function.update m.cc p (m.cc p + s.wdiff * c * c)
      cs := Function.update m.cs p (m.cs p + s.wdiff * c * sn)
      ss := Function.update m.ss p (m.ss p + s.wdiff * sn * sn)
      nhit := Function.update m.nhit p (m.nhit p + 1) }
  else m

/-- Modelled from the spec: the full accumulation kernel, folding the per
(pair, sample) accumulation step over all slots. -/
def tod2map_model (cosF sinF : ℚ → ℚ) (m : OutputSkyMap)
    (samples : List KernelSample) : OutputSkyMap :=
  samples.foldl (tod2map_step cosF sinF) m

/-! ## `TimeOrderedDataPairDiff.map2tod` (s4cmb/tod.py lines 342-410) -/

/-- The fields of the `TimeOrderedDataPairDiff` object that `map2tod` reads and
writes. The per-detector pointing `ra`/`dec`/`pa` stands for the output of
`self.pointing.offset_detector` (module `detector_pointing`, an external
collaborator), indexed by channel. -/
structure Tod where
  projection : String
  width : ℚ
  pixel_size : ℚ
  npixsky : ℕ
  obspix : List ℤ
  skyI : ℤ → ℚ
  skyQ : ℤ → ℚ
  skyU : ℤ → ℚ
  do_pol : Bool
  intrinsic_polangle : ℕ → ℚ
  hwpangle : List ℚ
  ra : ℕ → List ℚ
  dec : ℕ → List ℚ
  pa : ℕ → List ℚ
  point_matrix : ℕ → List ℤ
  pol_angs : ℕ → List ℚ

/-- `compute_simpolangle` (lines 294-340), without the systematic-error
branch: total polarization angle = parallactic angle + `(90 - intrinsic)*d2r`
+ twice the half-wave-plate angle, with flipped signs under demodulation. -/
def compute_simpolangle (d2r : ℚ) (T : Tod) (ch : ℕ) (do_demodulation : Bool) :
    List ℚ :=
  List.zipWith
    (fun pav hwpv =>
      if do_demodulation then pav - (90 - T.intrinsic_polangle ch) * d2r - 2 * hwpv
      else pav + (90 - T.intrinsic_polangle ch) * d2r + 2 * hwpv)
    (T.pa ch) T.hwpangle

/-- Modelled from the spec: the global pixel identifiers of one detector's
samples. `ang2pix` abstracts the external healpy tessellation resolver
(`radec2thetaphi` followed by `hp.ang2pix`, including the optional
equatorial-to-galactic rotation), the "fixed equal-area sphere tessellation"
of §4.3; it is not part of the sources. -/
def map2tod_index_global (ang2pix : ℚ → ℚ → ℤ) (T : Tod) (ch : ℕ) : List ℤ :=
  List.zipWith ang2pix (T.ra ch) (T.dec ch)

/-- The local pixel indices computed by `map2tod` for channel `ch`
(lines 373-387): the flat branch quantizes the `LamCyl` plane coordinates on
the grid anchored at `-width/2 * d2r`, the healpix branch resolves the global
pixels against `obspix` with `cut_outliers=True`. -/
def map2tod_index_local (ang2pix : ℚ → ℚ → ℤ) (sinF : ℚ → ℚ) (d2r : ℚ)
    (T : Tod) (ch : ℕ) : Except String (List ℤ) :=
  if T.projection = "flat" then
    let xy := LamCyl sinF (T.ra ch) (T.dec ch)
    Except.ok
      (bpm_flat (-(T.width) / 2 * d2r) (-(T.width) / 2 * d2r) T.pixel_size
        (Nat.sqrt T.npixsky) xy.1 xy.2)
  else
    bpm_healpix T.obspix true (map2tod_index_global ang2pix T ch)

/-- The polarized timestream sample of `map2tod` (lines 405-408):
`I[g] + Q[g] * cos(2 * pol_ang) + U[g] * sin(2 * pol_ang)`. -/
def map2todSignal (skyI skyQ skyU : ℤ → ℚ) (cosF sinF : ℚ → ℚ) (g : ℤ)
    (a : ℚ) : ℚ :=
  skyI g + skyQ g * cosF (2 * a) + skyU g * sinF (2 * a)

/-- `map2tod` (lines 342-410): computes the channel's local pixel indices and
polarization angles, stores both in pair slot `ch / 2` when `ch` is even
(lines 389-391 and 401-403), and returns the synthesized timestream. -/
def map2tod (ang2pix : ℚ → ℚ → ℤ) (cosF sinF : ℚ → ℚ) (d2r : ℚ) (T : Tod)
    (ch : ℕ) : Except String (Tod × List ℚ) :=
  match map2tod_index_local ang2pix sinF d2r T ch with
  | Except.error e => Except.error e
  | Except.ok index_local =>
    let index_global := map2tod_index_global ang2pix T ch
    let T1 :=
      if ch % 2 = 0 then
        { T with point_matrix := Function.update T.point_matrix (ch / 2) index_local }
      else T
    let norm : ℚ := 1
    if T.do_pol then
      let pol_ang := compute_simpolangle d2r T ch false
      let T2 :=
        if ch % 2 = 0 then
          { T1 with pol_angs := Function.update T1.pol_angs (ch / 2) pol_ang }
        else T1
      Except.ok (T2,
        List.zipWith
          (fun g a => map2todSignal T.skyI T.skyQ T.skyU cosF sinF g a * norm)
          index_global pol_ang)
    else
      Except.ok (T1, index_global.map (fun g => norm * T.skyI g))

/-! ## Pointing model corrector (`pointing.apply_pointing_model`,
time_ordered_data/tod.py lines 122-199) -/

/-- `sec2deg = 360.0 / 86400.0`. -/
def sec2deg : ℚ := 360 / 86400

/-- `np.min` of a timestamp list (the source never takes it on an empty
scan). -/
def npMin : List ℚ → ℚ
  | [] => 0
  | h :: t => t.foldl (fun a b => if a ≤ b then a else b) h

/-- The resolved pointing-model parameter map: every named term defaults to
zero, overridden by the entry of `value_params` at the position of the term's
name inside `allowed_params` (lines 142-151). `allowed_params` is the
space-split name list `self.allowed_params.split()`. -/
def getParam (allowed_params : List String) (value_params : List ℚ)
    (p : String) : ℚ :=
  match allowed_params.findIdx? (fun q => q == p) with
  | some i => value_params.getD i 0
  | none => 0

/-- The time-linear term of the elevation correction:
`params['elt'] * (t - tmin)` (line 188). -/
def eltTerm (elt tmin t : ℚ) : ℚ :=
  elt * (t - tmin)

/-- The time-linear ('elt') contribution to the elevation correction offset at
sample `i`: `params['elt'] * (time[i] - np.min(time))`. -/
def eltContribution (elt : ℚ) (time : List ℚ) (i : ℕ) : ℚ :=
  eltTerm elt (npMin time) (time.getD i 0)

/-- `List.zipWith` over three lists, used for the elementwise elevation
formula. -/
def zip3With {α β γ δ : Type} (f : α → β → γ → δ) :
    List α → List β → List γ → List δ
  | a :: as', b :: bs, c :: cs => f a b c :: zip3With f as' bs cs
  | _, _, _ => []

/-! ## IEEE-style value model
(for `get_QU`, s4cmb/tod.py lines 615-633, and for the divisions of
`apply_pointing_model`, time_ordered_data/tod.py lines 184 and 194)

Exact rationals cannot represent `NaN` or the infinities, so the NaN handling
of `get_QU` and of the pointing corrector's divisions is analysed over a
four-constructor value type with the IEEE-754 propagation rules that numpy
implements elementwise. -/

/-- A double-precision value: `NaN`, the two infinities, or a finite value
(held exactly as a rational). -/
inductive F where
  | nan : F
  | pinf : F
  | ninf : F
  | fin : ℚ → F
deriving DecidableEq

/-- IEEE negation. -/
def fNeg : F → F
  | F.nan => F.nan
  | F.pinf => F.ninf
  | F.ninf => F.pinf
  | F.fin q => F.fin (-q)

/-- IEEE addition: `NaN` absorbs, opposite infinities give `NaN`. -/
def fAdd : F → F → F
  | F.nan, _ => F.nan
  | _, F.nan => F.nan
  | F.pinf, F.ninf => F.nan
  | F.ninf, F.pinf => F.nan
  | F.pinf, _ => F.pinf
  | _, F.pinf => F.pinf
  | F.ninf, _ => F.ninf
  | _, F.ninf => F.ninf
  | F.fin q, F.fin r => F.fin (q + r)

/-- IEEE subtraction. -/
def fSub (a b : F) : F :=
  fAdd a (fNeg b)

/-- IEEE multiplication: `NaN` absorbs, `0 * inf = NaN`. -/
def fMul : F → F → F
  | F.nan, _ => F.nan
  | _, F.nan => F.nan
  | F.pinf, F.pinf => F.pinf
  | F.pinf, F.ninf => F.ninf
  | F.ninf, F.pinf => F.ninf
  | F.ninf, F.ninf => F.pinf
  | F.pinf, F.fin q => if q = 0 then F.nan else if 0 < q then F.pinf else F.ninf
  | F.fin q, F.pinf => if q = 0 then F.nan else if 0 < q then F.pinf else F.ninf
  | F.ninf, F.fin q => if q = 0 then F.nan else if 0 < q then F.ninf else F.pinf
  | F.fin q, F.ninf => if q = 0 then F.nan else if 0 < q then F.ninf else F.pinf
  | F.fin q, F.fin r => F.fin (q * r)

/-- IEEE reciprocal: `1/NaN = NaN`, `1/inf = 0`, `1/0 = inf` (numpy emits a
warning but returns `inf`). -/
def fInv : F → F
  | F.nan => F.nan
  | F.pinf => F.fin 0
  | F.ninf => F.fin 0
  | F.fin q => if q = 0 then F.pinf else F.fin (1 / q)

/-- IEEE division: `NaN` absorbs, `inf/inf = NaN`, `x/inf = 0`,
`0/0 = NaN`, and `x/0 = ±inf` for finite nonzero `x` (numpy warns but
returns these values). -/
def fDiv : F → F → F
  | F.nan, _ => F.nan
  | _, F.nan => F.nan
  | F.pinf, F.pinf => F.nan
  | F.pinf, F.ninf => F.nan
  | F.ninf, F.pinf => F.nan
  | F.ninf, F.ninf => F.nan
  | F.pinf, F.fin q => if 0 ≤ q then F.pinf else F.ninf
  | F.ninf, F.fin q => if 0 ≤ q then F.ninf else F.pinf
  | F.fin _, F.pinf => F.fin 0
  | F.fin _, F.ninf => F.fin 0
  | F.fin q, F.fin r =>
    if r = 0 then
      if q = 0 then F.nan else if 0 < q then F.pinf else F.ninf
    else F.fin (q / r)

/-- IEEE absolute value. -/
def fAbs : F → F
  | F.nan => F.nan
  | F.pinf => F.pinf
  | F.ninf => F.pinf
  | F.fin q => F.fin |q|

/-- IEEE `<`: every comparison involving `NaN` is false. -/
def fLt : F → F → Bool
  | F.nan, _ => false
  | _, F.nan => false
  | F.pinf, _ => false
  | _, F.pinf => true
  | F.ninf, F.ninf => false
  | F.ninf, _ => true
  | F.fin _, F.ninf => false
  | F.fin q, F.fin r => decide (q < r)

/-- `np.isnan`. -/
def isnanF : F → Bool
  | F.nan => true
  | _ => false

/-- `get_QU` at one pixel over IEEE-style values (lines 615-633), returning
`(idet, Q, U)`. `raiseMode` selects the branch taken by the
`try/except FloatingPointError` around `np.abs(testcc) < thresh`: under
numpy's default error state the comparison silently returns `False` on `NaN`
entries (`raiseMode = false`); only when numpy is configured to raise on
invalid comparisons does the `except` handler run, which marks the `NaN`
entries of `testcc` as singular before thresholding the rest
(`raiseMode = true`). -/
def get_QU_pix (raiseMode : Bool) (cc cs ss dc ds : F) : F × F × F :=
  let testcc := fSub (fMul cc ss) (fMul cs cs)
  let idet0 := if testcc ≠ F.fin 0 then fInv testcc else F.fin 0
  let izero :=
    if raiseMode then isnanF testcc || fLt (fAbs testcc) (F.fin epsF32)
    else fLt (fAbs testcc) (F.fin epsF32)
  let idet := if izero then F.fin 0 else idet0
  (idet,
   fMul idet (fSub (fMul ss dc) (fMul cs ds)),
   fMul idet (fAdd (fMul (fNeg cs) dc) (fMul cc ds)))

/-- `pointing.apply_pointing_model` (time_ordered_data/tod.py lines 122-199):
checks the `value_params`/`allowed_params` length contract, resolves the
parameter map, computes the azimuth and elevation correction offsets as the
fixed closed-form sum of harmonic, static and time-linear terms, converts
them from arc-minutes to radians (`am2rad`, the embedding of `π/(180*60)`),
applies the `cos(elevation)` foreshortening to the azimuth offset, and
subtracts both offsets from the encoder values. `lat` is in radians, as
stored by `__init__`.

The method's only two divisions — `params['ref'] / tan(el_enc)` (line 184)
and `azd / cos(el_enc)` (line 194) — are the only places where a non-finite
IEEE value can arise from finite inputs (all other terms are sums and
products of finite values, which floats perform without `NaN`s and which the
embedding performs exactly in `ℚ`), so exactly these two operations and the
surrounding combination are computed in the IEEE value model `F`: the
elevation offset is the exact finite part `eld0` plus the IEEE quotient of
the refraction term, as on lines 174-188, and the outputs are IEEE
differences of the encoder values and the scaled offsets (lines 190-197). -/
def apply_pointing_model (sinF cosF tanF : ℚ → ℚ) (am2rad : ℚ)
    (az_enc el_enc time : List ℚ) (value_params : List ℚ)
    (allowed_params : List String) (lat : ℚ) : Except String (List F × List F) :=
  if value_params.length = allowed_params.length then
    let P := getParam allowed_params value_params
    let dt := P "dt" * sec2deg
    let tmin := npMin time
    let azd := fun (a e : ℚ) =>
      -(P "an") * sinF a * sinF e
      - P "aw" * cosF a * sinF e
      - (-(P "an2") * sinF (2 * a) * sinF e)
      - P "aw2" * cosF (2 * a) * sinF e
      - (-(P "an4") * sinF (4 * a) * sinF e)
      - P "aw4" * cosF (4 * a) * sinF e
      + P "npae" * sinF e
      - P "ca"
      + P "ia" * cosF e
      + dt * (-sinF lat + cosF a * cosF lat * tanF e)
    let eld0 := fun (a e t : ℚ) =>
      P "an" * cosF a
      - P "aw" * sinF a
      - P "an2" * cosF (2 * a)
      - P "aw2" * sinF (2 * a)
      - P "an4" * cosF (4 * a)
      - P "aw4" * sinF (4 * a)
      - P "ie"
      + P "tf" * cosF e
      + P "tfs" * sinF e
      + -dt * cosF lat * sinF a
      + eltTerm (P "elt") tmin t
    Except.ok
      (List.zipWith
        (fun a e =>
          fSub (F.fin a) (fDiv (F.fin (azd a e * am2rad)) (F.fin (cosF e))))
        az_enc el_enc,
       zip3With
        (fun a e t =>
          fSub (F.fin e)
            (fMul
              (fAdd (F.fin (eld0 a e t))
                (fNeg (fDiv (F.fin (P "ref")) (F.fin (tanF e)))))
              (F.fin am2rad)))
        az_enc el_enc time)
  else
    Except.error "value_params and allowed_params must have the same length"

/-! ## The map -> TOD -> map round trip
(the doctest scenario of `tod2map`, s4cmb/tod.py lines 426-470) -/

/-- One (pair, sample) slot of a round-trip run: the local pixel index `pix`
assigned by `build_pointing_matrix`, the global sky pixel `g` the detectors
look at, and the total polarization angles of the two detectors of the pair
(`aTop` stored in the pair slot of `pol_angs`, `aBot` of its partner). -/
structure RTsample where
  pix : ℤ
  g : ℤ
  aTop : ℚ
  aBot : ℚ

/-- The kernel slot produced for a round-trip (pair, sample) pair: both
timestream values are the `map2tod` signals read from the input sky at the
pair's global pixel, the stored angle is the top detector's, the sum and
difference noise weights are the defaults of `get_weights` (all ones) and the
`get_timestream_masks` mask is one. -/
def rtKernelSample (cosF sinF : ℚ → ℚ) (skyI skyQ skyU : ℤ → ℚ)
    (s : RTsample) : KernelSample :=
  { pix := s.pix
    polang := s.aTop
    d1 := map2todSignal skyI skyQ skyU cosF sinF s.g s.aTop
    d2 := map2todSignal skyI skyQ skyU cosF sinF s.g s.aBot
    wsum := 1
    wdiff := 1
    mask := 1 }

/-- The round-trip accumulator: generate the pair-differenced timestreams from
the input sky with `map2tod` signals and accumulate all of them into an empty
`OutputSkyMap` with the accumulation kernel. -/
def roundtrip (cosF sinF : ℚ → ℚ) (skyI skyQ skyU : ℤ → ℚ) (obspix : List ℤ)
    (samples : List RTsample) : OutputSkyMap :=
  tod2map_model cosF sinF
    (emptyOutputSkyMap "healpix" (some obspix) obspix.length)
    (samples.map (rtKernelSample cosF sinF skyI skyQ skyU))

/-- The normal-equation invariant maintained by the round-trip accumulation:
at every pixel hit by some sample, the accumulated right-hand sides are the
input sky values contracted with the accumulated weights. -/
def RTInv (skyI skyQ skyU : ℤ → ℚ) (samples : List RTsample)
    (m : OutputSkyMap) : Prop :=
  ∀ s ∈ samples, 0 ≤ s.pix →
    m.d s.pix.toNat = skyI s.g * m.w s.pix.toNat ∧
    m.dc s.pix.toNat =
      skyQ s.g * m.cc s.pix.toNat + skyU s.g * m.cs s.pix.toNat ∧
    m.ds s.pix.toNat =
      skyQ s.g * m.cs s.pix.toNat + skyU s.g * m.ss s.pix.toNat

/-! ## Helper lemmas -/

/-- A nonnegative result of `localIndexHealpix` is a valid position inside
`obspix` holding exactly the queried global pixel. -/
lemma localIndexHealpix_nonneg (obspix : List ℤ) (g : ℤ)
    (h : 0 ≤ localIndexHealpix obspix g) :
    (localIndexHealpix obspix g).toNat < obspix.length ∧
      obspix.getD (localIndexHealpix obspix g).toNat 0 = g := by
  unfold localIndexHealpix at *
  by_cases hc : searchsorted obspix g < obspix.length ∧
      obspix.getD (searchsorted obspix g) (g + 1) = g
  · rw [if_pos hc] at *
    rcases hc with ⟨h1, h2⟩
    rw [List.getD_eq_getElem obspix (g + 1) h1] at h2
    simp only [Int.toNat_natCast]
    exact ⟨h1, by rw [List.getD_eq_getElem obspix 0 h1]; exact h2⟩
  · rw [if_neg hc] at h
    omega

/-- A global pixel outside `obspix` is mapped to the sentinel. -/
lemma localIndexHealpix_not_mem (obspix : List ℤ) (g : ℤ) (hg : g ∉ obspix) :
    localIndexHealpix obspix g = -1 := by
  by_contra hne
  have hnn : 0 ≤ localIndexHealpix obspix g := by
    unfold localIndexHealpix at *
    by_cases hc : searchsorted obspix g < obspix.length ∧
        obspix.getD (searchsorted obspix g) (g + 1) = g
    · rw [if_pos hc]; exact Int.ofNat_nonneg _
    · rw [if_neg hc] at hne; exact absurd rfl hne
  obtain ⟨hlt, hget⟩ := localIndexHealpix_nonneg obspix g hnn
  exact hg (hget ▸ (List.getD_eq_getElem obspix 0 hlt ▸ List.getElem_mem hlt))

/-- Every entry of an all-zero list reads back as zero. -/
lemma getD_all_zero : ∀ (l : List ℚ), (∀ v ∈ l, v = 0) → ∀ i, l.getD i 0 = 0
  | [], _, _ => by simp
  | h :: t, hz, 0 => by simpa using hz h (by simp)
  | h :: t, hz, i + 1 => by
    simpa using getD_all_zero t (fun v hv => hz v (List.mem_cons_of_mem _ hv)) i

/-- The corrected azimuth of a zero-offset run: subtracting the IEEE quotient
`0 / cos(el)` returns each raw azimuth sample unchanged as long as the cosine
of its elevation is nonzero. -/
lemma zipWith_az_id (cosF : ℚ → ℚ) : ∀ (az el : List ℚ),
    az.length ≤ el.length → (∀ e ∈ el, cosF e ≠ 0) →
    List.zipWith
      (fun a e => fSub (F.fin a) (fDiv (F.fin 0) (F.fin (cosF e)))) az el =
      az.map F.fin
  | [], _, _, _ => by simp
  | a :: as', [], h, _ => by simp at h
  | a :: as', e :: es, h, hcos => by
    have he : cosF e ≠ 0 := hcos e (by simp)
    have htail := zipWith_az_id cosF as' es (by simpa using h)
      (fun x hx => hcos x (List.mem_cons_of_mem _ hx))
    simp only [List.zipWith_cons_cons, List.map_cons, htail]
    simp [fSub, fDiv, fAdd, fNeg, he]

/-- The corrected elevation of a zero-offset run: the zero finite part plus
the IEEE quotient `0 / tan(el)` returns each raw elevation sample unchanged
as long as the tangent of that sample is nonzero. -/
lemma zip3With_el_id (tanF : ℚ → ℚ) (am2rad : ℚ) : ∀ (az el t : List ℚ),
    el.length ≤ az.length → el.length ≤ t.length →
    (∀ e ∈ el, tanF e ≠ 0) →
    zip3With
      (fun _ e _ =>
        fSub (F.fin e)
          (fMul (fAdd (F.fin 0) (fNeg (fDiv (F.fin 0) (F.fin (tanF e)))))
            (F.fin am2rad))) az el t =
      el.map F.fin
  | az, [], t, _, _, _ => by cases az <;> cases t <;> rfl
  | [], e :: es, _, h1, _, _ => by simp at h1
  | a :: as', e :: es, [], _, h2, _ => by simp at h2
  | a :: as', e :: es, t :: ts, h1, h2, htan => by
    have he : tanF e ≠ 0 := htan e (by simp)
    have htail := zip3With_el_id tanF am2rad as' es ts (by simpa using h1)
      (by simpa using h2) (fun x hx => htan x (List.mem_cons_of_mem _ hx))
    simp only [zip3With, List.map_cons, htail]
    simp [fSub, fDiv, fAdd, fNeg, fMul, he]

/-- The first element of a list is its minimum as soon as it bounds every
element from below. -/
lemma npMin_eq_head : ∀ (time : List ℚ), time ≠ [] →
    (∀ x ∈ time, time.getD 0 0 ≤ x) → npMin time = time.getD 0 0
  | [], hne, _ => absurd rfl hne
  | h :: t, _, hmin => by
    simp only [npMin, List.getD_cons_zero]
    have : ∀ (t' : List ℚ), (∀ x ∈ t', h ≤ x) → t'.foldl min h = h := by
      intro t'
      induction t' with
      | nil => intro _; rfl
      | cons x xs ih =>
        intro hx
        simp only [List.foldl_cons,
          min_eq_left (hx x (by simp))]
        exact ih fun v hv => hx v (List.mem_cons_of_mem _ hv)
    exact this t fun x hx => by
      simpa using hmin x (List.mem_cons_of_mem _ hx)

/-! ## Claim theorems -/

/-- Claim C2: a sample whose global pixel is not in the observed-pixel set
(healpix branch, outlier-cutting enabled) or whose grid coordinates fall
outside the square grid extent (flat branch) gets local index exactly `-1`;
the local-index output has the same length as the input arrays; and a
sentinel-carrying sample contributes nothing to the accumulator arrays. -/
theorem claim_C2_sentinel_invariant :
    (∀ (obspix : List ℤ) (g : ℤ), g ∉ obspix → localIndexHealpix obspix g = -1) ∧
    (∀ (obspix : List ℤ) (index_global : List ℤ),
      bpm_healpix obspix true index_global =
        Except.ok (index_global.map (localIndexHealpix obspix)) ∧
      (index_global.map (localIndexHealpix obspix)).length = index_global.length) ∧
    (∀ (xmin ymin ps : ℚ) (n : ℕ) (x y : ℚ),
      gridIndex xmin ps x < 0 ∨ (n : ℤ) ≤ gridIndex xmin ps x ∨
        gridIndex ymin ps y < 0 ∨ (n : ℤ) ≤ gridIndex ymin ps y →
      localIndexFlat xmin ymin ps n x y = -1) ∧
    (∀ (xmin ymin ps : ℚ) (n : ℕ) (xs ys : List ℚ), xs.length = ys.length →
      (bpm_flat xmin ymin ps n xs ys).length = xs.length) ∧
    (∀ (cosF sinF : ℚ → ℚ) (m : OutputSkyMap) (s : KernelSample),
      s.pix = -1 → tod2map_step cosF sinF m s = m) := by
  refine ⟨?_, ?_, ?_, ?_, ?_⟩
  · exact localIndexHealpix_not_mem
  · intro obspix index_global
    constructor
    · simp [bpm_healpix]
    · exact List.length_map _ _
  · intro xmin ymin ps n x y h
    unfold localIndexFlat
    rw [if_pos h]
  · intro xmin ymin ps n xs ys h
    simp [bpm_flat, h]
  · intro cosF sinF m s h
    unfold tod2map_step
    rw [if_neg (by omega)]

/-- Claim C2, witness: concrete out-of-set and out-of-grid samples are
flagged with `-1`, and a sentinel kernel slot leaves a concrete accumulator
untouched. -/
theorem claim_C2_sentinel_invariant_witness :
    ((5 : ℤ) ∉ ([0, 3] : List ℤ) ∧ localIndexHealpix [0, 3] 5 = -1) ∧
    (gridIndex 0 1 (-10) < 0 ∧ localIndexFlat 0 0 1 4 (-10) 0 = -1) ∧
    (([(2 : ℚ), 3]).length = ([(0 : ℚ), 1]).length ∧
      (bpm_flat 0 0 1 4 [(2 : ℚ), 3] [(0 : ℚ), 1]).length = 2) ∧
    tod2map_step (fun q => q) (fun q => q)
        (emptyOutputSkyMap "flat" none 4)
        { pix := -1, polang := 0, d1 := 1, d2 := 2, wsum := 1, wdiff := 1,
          mask := 1 } =
      emptyOutputSkyMap "flat" none 4 :=
  ⟨⟨by decide, claim_C2_sentinel_invariant.1 [0, 3] 5 (by decide)⟩,
   ⟨by norm_num [gridIndex, truncQ, Int.ceil_neg],
    claim_C2_sentinel_invariant.2.2.1 0 0 1 4 (-10) 0
      (Or.inl (by norm_num [gridIndex, truncQ, Int.ceil_neg]))⟩,
   ⟨by decide, claim_C2_sentinel_invariant.2.2.2.1 0 0 1 4 _ _ (by decide)⟩,
   claim_C2_sentinel_invariant.2.2.2.2 _ _ _ _ rfl⟩

/-- Claim C3: `get_I` returns `0` for pixels whose intensity weight is not
strictly positive and `d / w` for pixels with positive weight, and `get_QU`
returns `Q = U = 0` for pixels whose determinant is below the
single-precision epsilon in absolute value. -/
theorem claim_C3_solver_invariants (m : OutputSkyMap) (p : ℕ) :
    (m.w p ≤ 0 → get_I m p = 0) ∧
    (0 < m.w p → get_I m p = m.d p / m.w p) ∧
    (|testccF m p| < epsF32 →
      (get_QU m).2.1 p = 0 ∧ (get_QU m).2.2 p = 0) := by
  refine ⟨?_, ?_, ?_⟩
  · intro h
    simp [get_I, not_lt.mpr h]
  · intro h
    simp [get_I, h]
  · intro h
    constructor <;> simp [get_QU, idetF, h]

/-- Claim C3, witness: concrete unconstrained, constrained and singular
pixels. -/
theorem claim_C3_solver_invariants_witness :
    ((emptyOutputSkyMap "flat" none 4).w 0 ≤ 0 ∧
      get_I (emptyOutputSkyMap "flat" none 4) 0 = 0) ∧
    ((0 : ℚ) <
        ({ emptyOutputSkyMap "flat" none 4 with
            w := fun _ => 2, d := fun _ => 6 } : OutputSkyMap).w 1 ∧
      get_I ({ emptyOutputSkyMap "flat" none 4 with
            w := fun _ => 2, d := fun _ => 6 } : OutputSkyMap) 1 = 6 / 2) ∧
    (|testccF (emptyOutputSkyMap "flat" none 4) 0| < epsF32 ∧
      (get_QU (emptyOutputSkyMap "flat" none 4)).2.1 0 = 0 ∧
      (get_QU (emptyOutputSkyMap "flat" none 4)).2.2 0 = 0) :=
  ⟨⟨le_refl 0, (claim_C3_solver_invariants _ 0).1 (le_refl 0)⟩,
   ⟨by norm_num [emptyOutputSkyMap],
    (claim_C3_solver_invariants _ 1).2.1 (by norm_num [emptyOutputSkyMap])⟩,
   ⟨by norm_num [testccF, emptyOutputSkyMap, epsF32],
    (claim_C3_solver_invariants _ 0).2.2
      (by norm_num [testccF, emptyOutputSkyMap, epsF32])⟩⟩

/-- Claim C4 (code bug): at a pixel whose determinant evaluates to `NaN`,
under numpy's default floating-point error state the comparison
`np.abs(testcc) < thresh` silently returns `False`, so `get_QU` does NOT
treat the pixel as singular: the inverse determinant stays `NaN` and the
returned `Q` and `U` are `NaN`, not `0`. The `except FloatingPointError`
handler that would mark `NaN` determinants as singular (the documented
intent, and what the claim states) only runs when numpy is configured to
raise on invalid comparisons. Concrete failing pixel:
`cc = NaN`, `cs = ss = dc = ds = 0`. -/
theorem claim_C4_nan_default_divergence :
    isnanF (fSub (fMul F.nan (F.fin 0)) (fMul (F.fin 0) (F.fin 0))) = true ∧
    (get_QU_pix false F.nan (F.fin 0) (F.fin 0) (F.fin 0) (F.fin 0)).1 =
      F.nan ∧
    (get_QU_pix false F.nan (F.fin 0) (F.fin 0) (F.fin 0) (F.fin 0)).2.1 =
      F.nan ∧
    (get_QU_pix false F.nan (F.fin 0) (F.fin 0) (F.fin 0) (F.fin 0)).2.2 =
      F.nan ∧
    (get_QU_pix true F.nan (F.fin 0) (F.fin 0) (F.fin 0) (F.fin 0)).1 =
      F.fin 0 := by
  decide

/-- Claim C5, counterexample: the zero-parameter identity does not hold at
every encoder input. At an encoder elevation sample of exactly `0` the
refraction term of line 184 evaluates `0.0 / np.tan(0.0) = 0.0/0.0 = NaN`
even though every parameter is zero, the NaN propagates through lines 192 and
197, and the corrected elevation sample is `NaN`, not the raw input. Concrete
run: one sample with `az_enc = el_enc = time = [0]`, empty parameter vectors,
and trig oracles agreeing with the real functions at the evaluated points
(`tan 0 = 0`, `cos 0 = 1`). -/
theorem claim_C5_counterexample :
    apply_pointing_model (fun q => q) (fun _ => 1) (fun q => q) 1
        [0] [0] [0] [] [] 0 = Except.ok ([F.fin 0], [F.nan]) ∧
    ([F.nan] : List F) ≠ [(0 : ℚ)].map F.fin := by
  have hP : ∀ p, getParam [] [] p = 0 := fun _ => rfl
  constructor
  · unfold apply_pointing_model
    norm_num [hP, eltTerm, npMin, zip3With, fSub, fAdd, fNeg, fMul, fDiv]
  · simp

/-- Claim C5, amended: with a zero-valued parameter map (and length-matching
parameter vectors, equal-length encoder arrays) the pointing-model corrector
returns the raw encoder azimuth and elevation unchanged at every sample where
its two divisions are defined — `cos(el_enc) ≠ 0` and `tan(el_enc) ≠ 0` —
for every abstract trigonometry and conversion constant; at a sample with
`tan(el_enc) = 0` the refraction quotient is `0/0 = NaN` and the corrected
elevation is `NaN` instead.  The corrector is a pure function of its inputs,
so identical inputs give identical outputs. -/
theorem claim_C5_zero_params_restricted_identity (sinF cosF tanF : ℚ → ℚ)
    (am2rad : ℚ) (az_enc el_enc time : List ℚ) (value_params : List ℚ)
    (allowed_params : List String) (lat : ℚ)
    (hlen : value_params.length = allowed_params.length)
    (hzero : ∀ v ∈ value_params, v = 0)
    (hael : az_enc.length = el_enc.length)
    (helt : el_enc.length = time.length)
    (hcos : ∀ e ∈ el_enc, cosF e ≠ 0)
    (htan : ∀ e ∈ el_enc, tanF e ≠ 0) :
    apply_pointing_model sinF cosF tanF am2rad az_enc el_enc time
        value_params allowed_params lat =
      Except.ok (az_enc.map F.fin, el_enc.map F.fin) ∧
    apply_pointing_model sinF cosF tanF am2rad az_enc el_enc time
        value_params allowed_params lat =
      apply_pointing_model sinF cosF tanF am2rad az_enc el_enc time
        value_params allowed_params lat := by
  have hP : ∀ p, getParam allowed_params value_params p = 0 := by
    intro p
    unfold getParam
    cases hfind : allowed_params.findIdx? (fun q => q == p) with
    | none => rfl
    | some i => exact getD_all_zero value_params hzero i
  constructor
  · unfold apply_pointing_model
    rw [if_pos hlen]
    simp only [hP, eltTerm, neg_zero, zero_mul, mul_zero, zero_div, sub_zero,
      zero_sub, add_zero, zero_add, neg_neg, Except.ok.injEq, Prod.mk.injEq]
    constructor
    · exact zipWith_az_id cosF az_enc el_enc (le_of_eq hael) hcos
    · exact zip3With_el_id tanF am2rad az_enc el_enc time
        (le_of_eq hael.symm) (le_of_eq helt) htan
  · rfl

/-- Claim C5, witness: a concrete two-sample scan with the five-parameter
model names, zero values, and nonvanishing cosine/tangent at the encoder
elevations comes back unchanged. -/
theorem claim_C5_zero_params_restricted_identity_witness :
    ([(0 : ℚ), 0, 0, 0, 0].length = ["ia", "ie", "ca", "an", "aw"].length ∧
      ([(1 : ℚ), 2]).length = ([(3 : ℚ), 4]).length ∧
      ([(3 : ℚ), 4]).length = ([(5 : ℚ), 6]).length ∧
      (∀ e ∈ [(3 : ℚ), 4], (fun _ : ℚ => (1 : ℚ)) e ≠ 0)) ∧
    apply_pointing_model (fun q => q) (fun _ => 1) (fun _ => 1) 7
        [(1 : ℚ), 2] [(3 : ℚ), 4] [(5 : ℚ), 6] [(0 : ℚ), 0, 0, 0, 0]
        ["ia", "ie", "ca", "an", "aw"] 11 =
      Except.ok ([(1 : ℚ), 2].map F.fin, [(3 : ℚ), 4].map F.fin) :=
  ⟨⟨by decide, by decide, by decide, by norm_num⟩,
   (claim_C5_zero_params_restricted_identity (fun q => q) (fun _ => 1)
      (fun _ => 1) 7 [(1 : ℚ), 2] [(3 : ℚ), 4] [(5 : ℚ), 6]
      [(0 : ℚ), 0, 0, 0, 0] ["ia", "ie", "ca", "an", "aw"] 11 (by decide)
      (by decide) (by decide) (by decide) (by norm_num) (by norm_num)).1⟩

/-- Claim C6, counterexample: the time-linear elevation term is measured
relative to `np.min(time)`, not relative to the first sample; on the
(non-monotonic) timestamp array `[1, 0]` with `elt = 1` the contribution at
the first sample is `1`, not `0`, so the claim as stated (quantified over
every timestamp array) fails. -/
theorem claim_C6_counterexample :
    eltContribution 1 [1, 0] 0 = 1 ∧ eltContribution 1 [1, 0] 0 ≠ 0 := by
  constructor <;> norm_num [eltContribution, eltTerm, npMin]

/-- Claim C6, amended: whenever the first timestamp of the scan is its
minimum (true of every monotonically sampled scan), the time-linear ('elt')
contribution to the elevation correction offset vanishes at the first
sample. -/
theorem claim_C6_elt_zero_at_scan_start (elt : ℚ) (time : List ℚ)
    (hne : time ≠ []) (hmin : ∀ x ∈ time, time.getD 0 0 ≤ x) :
    eltContribution elt time 0 = 0 := by
  unfold eltContribution eltTerm
  rw [npMin_eq_head time hne hmin]
  ring

/-- Claim C6, witness: on the increasing timestamp array `[2, 3]` the elt
contribution at the first sample is zero. -/
theorem claim_C6_elt_zero_at_scan_start_witness :
    (([(2 : ℚ), 3] : List ℚ) ≠ [] ∧
      ∀ x ∈ ([(2 : ℚ), 3] : List ℚ), ([(2 : ℚ), 3] : List ℚ).getD 0 0 ≤ x) ∧
    eltContribution 5 [2, 3] 0 = 0 :=
  ⟨⟨by decide, by decide⟩,
   claim_C6_elt_zero_at_scan_start 5 [2, 3] (by decide) (by decide)⟩

/-- Claim C7: in a polarized run, `map2tod` on an even channel writes the
computed local pixel indices and the computed polarization angles into pair
slot `ch / 2` of the shared pointing matrix and polarization-angle array
(leaving every other field of the object unchanged), while on an odd channel
it leaves the object, and in particular both shared arrays, unchanged. -/
theorem claim_C7_single_writer_parity (ang2pix : ℚ → ℚ → ℤ)
    (cosF sinF : ℚ → ℚ) (d2r : ℚ) (T : Tod) (ch : ℕ) (locals : List ℤ)
    (hpol : T.do_pol = true)
    (hloc : map2tod_index_local ang2pix sinF d2r T ch = Except.ok locals) :
    (ch % 2 = 0 →
      map2tod ang2pix cosF sinF d2r T ch = Except.ok
        ({ T with
            point_matrix := Function.update T.point_matrix (ch / 2) locals
            pol_angs := Function.update T.pol_angs (ch / 2)
              (compute_simpolangle d2r T ch false) },
         List.zipWith
           (fun g a => map2todSignal T.skyI T.skyQ T.skyU cosF sinF g a * 1)
           (map2tod_index_global ang2pix T ch)
           (compute_simpolangle d2r T ch false))) ∧
    (ch % 2 ≠ 0 →
      map2tod ang2pix cosF sinF d2r T ch = Except.ok
        (T,
         List.zipWith
           (fun g a => map2todSignal T.skyI T.skyQ T.skyU cosF sinF g a * 1)
           (map2tod_index_global ang2pix T ch)
           (compute_simpolangle d2r T ch false))) := by
  constructor
  · intro heven
    unfold map2tod
    rw [hloc]
    simp only [heven, if_pos, hpol, if_true]
  · intro hodd
    unfold map2tod
    rw [hloc]
    simp only [if_neg hodd, hpol, if_true]

/-- A one-pair, one-sample polarized `TimeOrderedDataPairDiff` object used to
instantiate the single-writer theorem. -/
def todW7 : Tod :=
  { projection := "healpix"
    width := 20
    pixel_size := 1
    npixsky := 1
    obspix := [0]
    skyI := fun _ => 0
    skyQ := fun _ => 0
    skyU := fun _ => 0
    do_pol := true
    intrinsic_polangle := fun _ => 0
    hwpangle := [0]
    ra := fun _ => [0]
    dec := fun _ => [0]
    pa := fun _ => [0]
    point_matrix := fun _ => [-1]
    pol_angs := fun _ => [0] }

/-- Claim C7, witness: on the concrete one-pair object, channel 0 (even)
stores its indices and angles in pair slot 0, channel 1 (odd) leaves the
object unchanged. -/
theorem claim_C7_single_writer_parity_witness :
    (todW7.do_pol = true ∧
      map2tod_index_local (fun _ _ => 0) (fun q => q) 1 todW7 0 =
        Except.ok [0] ∧
      map2tod_index_local (fun _ _ => 0) (fun q => q) 1 todW7 1 =
        Except.ok [0]) ∧
    map2tod (fun _ _ => 0) (fun q => q) (fun q => q) 1 todW7 0 = Except.ok
      ({ todW7 with
          point_matrix := Function.update todW7.point_matrix 0 [0]
          pol_angs := Function.update todW7.pol_angs 0
            (compute_simpolangle 1 todW7 0 false) },
       List.zipWith
         (fun g a => map2todSignal todW7.skyI todW7.skyQ todW7.skyU
           (fun q => q) (fun q => q) g a * 1)
         (map2tod_index_global (fun _ _ => 0) todW7 0)
         (compute_simpolangle 1 todW7 0 false)) ∧
    map2tod (fun _ _ => 0) (fun q => q) (fun q => q) 1 todW7 1 = Except.ok
      (todW7,
       List.zipWith
         (fun g a => map2todSignal todW7.skyI todW7.skyQ todW7.skyU
           (fun q => q) (fun q => q) g a * 1)
         (map2tod_index_global (fun _ _ => 0) todW7 1)
         (compute_simpolangle 1 todW7 1 false)) := by
  have hloc0 : map2tod_index_local (fun _ _ => 0) (fun q => q) 1 todW7 0 =
      Except.ok [0] := by
    simp [map2tod_index_local, todW7, bpm_healpix, map2tod_index_global,
      localIndexHealpix, searchsorted]
  have hloc1 : map2tod_index_local (fun _ _ => 0) (fun q => q) 1 todW7 1 =
      Except.ok [0] := by
    simp [map2tod_index_local, todW7, bpm_healpix, map2tod_index_global,
      localIndexHealpix, searchsorted]
  exact ⟨⟨rfl, hloc0, hloc1⟩,
    (claim_C7_single_writer_parity (fun _ _ => 0) (fun q => q) (fun q => q) 1
      todW7 0 [0] rfl hloc0).1 rfl,
    (claim_C7_single_writer_parity (fun _ _ => 0) (fun q => q) (fun q => q) 1
      todW7 1 [0] rfl hloc1).2 (by decide)⟩

/-- Claim C8: a successful `coadd` adds every named array (the seven
accumulator arrays and the hit counts) of the other accumulator element-wise
into this one; coadding with an all-zero accumulator of the same
observed-pixel set returns this accumulator unchanged; and coadding two
accumulators whose hit counts are all one yields hit count exactly 2
everywhere. -/
theorem claim_C8_coadd_elementwise (m o r : OutputSkyMap)
    (h : coadd m o = Except.ok r) :
    (∀ p, r.d p = m.d p + o.d p ∧ r.dc p = m.dc p + o.dc p ∧
      r.ds p = m.ds p + o.ds p ∧ r.w p = m.w p + o.w p ∧
      r.cc p = m.cc p + o.cc p ∧ r.cs p = m.cs p + o.cs p ∧
      r.ss p = m.ss p + o.ss p ∧ r.nhit p = m.nhit p + o.nhit p) ∧
    (∀ z : OutputSkyMap, m.obspix = z.obspix →
      (∀ p, z.d p = 0) → (∀ p, z.dc p = 0) → (∀ p, z.ds p = 0) →
      (∀ p, z.w p = 0) → (∀ p, z.cc p = 0) → (∀ p, z.cs p = 0) →
      (∀ p, z.ss p = 0) → (∀ p, z.nhit p = 0) →
      coadd m z = Except.ok m) ∧
    ((∀ p, m.nhit p = 1) → (∀ p, o.nhit p = 1) → ∀ p, r.nhit p = 2) := by
  have hob : m.obspix = o.obspix := by
    by_contra hne
    rw [coadd, if_neg hne] at h
    exact Except.noConfusion h
  rw [coadd, if_pos hob] at h
  have hr := (Except.ok.injEq _ _).mp h
  refine ⟨?_, ?_, ?_⟩
  · intro p
    rw [← hr]
    exact ⟨rfl, rfl, rfl, rfl, rfl, rfl, rfl, rfl⟩
  · intro z hzob hd hdc hds hw hcc hcs hss hnh
    rw [coadd, if_pos hzob]
    congr 1
    refine OutputSkyMap.ext rfl rfl rfl ?_ ?_ ?_ ?_ ?_ ?_ ?_ ?_ rfl
    · funext p; simp [hd p]
    · funext p; simp [hdc p]
    · funext p; simp [hds p]
    · funext p; simp [hw p]
    · funext p; simp [hcc p]
    · funext p; simp [hcs p]
    · funext p; simp [hss p]
    · funext p; simp [hnh p]
  · intro hm ho p
    rw [← hr]
    simp only [hm p, ho p]
    ring

/-- A unit-hit-count accumulator over four flat pixels. -/
def mapW8 : OutputSkyMap :=
  { emptyOutputSkyMap "flat" none 4 with nhit := fun _ => 1 }

/-- The element-wise sum of `mapW8` with itself, as `coadd` builds it. -/
def mapW8sum : OutputSkyMap :=
  { mapW8 with
    d := fun p => mapW8.d p + mapW8.d p
    dc := fun p => mapW8.dc p + mapW8.dc p
    ds := fun p => mapW8.ds p + mapW8.ds p
    w := fun p => mapW8.w p + mapW8.w p
    cc := fun p => mapW8.cc p + mapW8.cc p
    cs := fun p => mapW8.cs p + mapW8.cs p
    ss := fun p => mapW8.ss p + mapW8.ss p
    nhit := fun p => mapW8.nhit p + mapW8.nhit p }

/-- Claim C8, witness: coadding two concrete unit-hit accumulators yields hit
count 2 at pixel 0, and coadding with the all-zero accumulator of the same
layout is the identity. -/
theorem claim_C8_coadd_elementwise_witness :
    coadd mapW8 mapW8 = Except.ok mapW8sum ∧
    mapW8sum.nhit 0 = 2 ∧
    coadd mapW8 (emptyOutputSkyMap "flat" none 4) = Except.ok mapW8 := by
  have h : coadd mapW8 mapW8 = Except.ok mapW8sum := by
    rw [coadd, if_pos rfl]; rfl
  refine ⟨h, ?_, ?_⟩
  · exact (claim_C8_coadd_elementwise mapW8 mapW8 mapW8sum h).2.2
      (fun p => rfl) (fun p => rfl) 0
  · exact (claim_C8_coadd_elementwise mapW8 mapW8 mapW8sum h).2.1
      (emptyOutputSkyMap "flat" none 4) rfl (fun p => rfl) (fun p => rfl)
      (fun p => rfl) (fun p => rfl) (fun p => rfl) (fun p => rfl)
      (fun p => rfl) (fun p => rfl)

/-- Claim C9: `coadd` fails (raising at the point of call) exactly when the
two accumulators' observed-pixel sets differ, and succeeds on the
observed-pixel check when they coincide. -/
theorem claim_C9_coadd_obspix_check (m o : OutputSkyMap) :
    (m.obspix ≠ o.obspix →
      coadd m o =
        Except.error "To add maps together, they must have the same obspix!") ∧
    (m.obspix = o.obspix → ∃ r, coadd m o = Except.ok r) := by
  constructor
  · intro hne
    rw [coadd, if_neg hne]
  · intro heq
    exact ⟨_, by rw [coadd, if_pos heq]⟩

/-- Claim C9, witness: two concrete accumulators with different
observed-pixel sets are rejected; the same accumulator coadds with itself. -/
theorem claim_C9_coadd_obspix_check_witness :
    ((emptyOutputSkyMap "healpix" (some [0, 1]) 2).obspix ≠
      (emptyOutputSkyMap "healpix" (some [0, 2]) 2).obspix) ∧
    coadd (emptyOutputSkyMap "healpix" (some [0, 1]) 2)
        (emptyOutputSkyMap "healpix" (some [0, 2]) 2) =
      Except.error "To add maps together, they must have the same obspix!" ∧
    coadd (emptyOutputSkyMap "healpix" (some [0, 1]) 2)
        (emptyOutputSkyMap "healpix" (some [0, 1]) 2) =
      Except.ok { emptyOutputSkyMap "healpix" (some [0, 1]) 2 with
        d := fun _ => 0 + 0
        dc := fun _ => 0 + 0
        ds := fun _ => 0 + 0
        w := fun _ => 0 + 0
        cc := fun _ => 0 + 0
        cs := fun _ => 0 + 0
        ss := fun _ => 0 + 0
        nhit := fun _ => 0 + 0 } := by
  have hne : (emptyOutputSkyMap "healpix" (some [0, 1]) 2).obspix ≠
      (emptyOutputSkyMap "healpix" (some [0, 2]) 2).obspix := by decide
  exact ⟨hne,
    (claim_C9_coadd_obspix_check _ _).1 hne,
    by rw [coadd, if_pos rfl]; rfl⟩

/-- Claim C10: `get_I`, `get_QU` and `get_IQU` are pure reads: the seven
accumulator arrays and the hit counts of the object returned by
`get_QU`/`get_IQU` coincide with the input's (only the derived `idet`
attribute is attached), and the returned maps depend only on the accumulator
array contents, so they are deterministic given those contents. -/
theorem claim_C10_solver_purity (m m2 : OutputSkyMap)
    (hd : m.d = m2.d) (hdc : m.dc = m2.dc) (hds : m.ds = m2.ds)
    (hw : m.w = m2.w) (hcc : m.cc = m2.cc) (hcs : m.cs = m2.cs)
    (hss : m.ss = m2.ss) (hnh : m.nhit = m2.nhit) :
    ((get_QU m).1.d = m.d ∧ (get_QU m).1.dc = m.dc ∧
      (get_QU m).1.ds = m.ds ∧ (get_QU m).1.w = m.w ∧
      (get_QU m).1.cc = m.cc ∧ (get_QU m).1.cs = m.cs ∧
      (get_QU m).1.ss = m.ss ∧ (get_QU m).1.nhit = m.nhit) ∧
    ((get_IQU m).1.d = m.d ∧ (get_IQU m).1.dc = m.dc ∧
      (get_IQU m).1.ds = m.ds ∧ (get_IQU m).1.w = m.w ∧
      (get_IQU m).1.cc = m.cc ∧ (get_IQU m).1.cs = m.cs ∧
      (get_IQU m).1.ss = m.ss ∧ (get_IQU m).1.nhit = m.nhit) ∧
    (get_I m = get_I m2 ∧ (get_QU m).2.1 = (get_QU m2).2.1 ∧
      (get_QU m).2.2 = (get_QU m2).2.2 ∧ (get_IQU m).2 = (get_IQU m2).2) := by
  have hdet : get_I m = get_I m2 := by
    funext p
    rw [get_I, get_I, hd, hw]
  have hQ : (get_QU m).2.1 = (get_QU m2).2.1 := by
    funext p
    rw [get_QU, get_QU]
    simp only [idetF, testccF, hcc, hcs, hss, hdc, hds]
  have hU : (get_QU m).2.2 = (get_QU m2).2.2 := by
    funext p
    rw [get_QU, get_QU]
    simp only [idetF, testccF, hcc, hcs, hss, hdc, hds]
  refine ⟨⟨rfl, rfl, rfl, rfl, rfl, rfl, rfl, rfl⟩,
    ⟨rfl, rfl, rfl, rfl, rfl, rfl, rfl, rfl⟩,
    hdet, hQ, hU, ?_⟩
  rw [get_IQU, get_IQU]
  simp only [hdet, hQ, hU]

/-- Claim C10, witness: the solver leaves a concrete accumulator's arrays
unchanged and produces equal outputs on two objects sharing the same
arrays. -/
theorem claim_C10_solver_purity_witness :
    (get_QU (emptyOutputSkyMap "flat" none 4)).1.w =
      (emptyOutputSkyMap "flat" none 4).w ∧
    (get_QU (emptyOutputSkyMap "flat" none 4)).1.nhit =
      (emptyOutputSkyMap "flat" none 4).nhit ∧
    get_I (emptyOutputSkyMap "flat" none 4) =
      get_I (emptyOutputSkyMap "healpix" (some [0]) 1) :=
  ⟨(claim_C10_solver_purity (emptyOutputSkyMap "flat" none 4)
      (emptyOutputSkyMap "healpix" (some [0]) 1)
      rfl rfl rfl rfl rfl rfl rfl rfl).1.2.2.2.1,
   (claim_C10_solver_purity (emptyOutputSkyMap "flat" none 4)
      (emptyOutputSkyMap "healpix" (some [0]) 1)
      rfl rfl rfl rfl rfl rfl rfl rfl).1.2.2.2.2.2.2.2,
   (claim_C10_solver_purity (emptyOutputSkyMap "flat" none 4)
      (emptyOutputSkyMap "healpix" (some [0]) 1)
      rfl rfl rfl rfl rfl rfl rfl rfl).2.2.1⟩

/-- One kernel step preserves the round-trip invariant: samples in the same
accumulator pixel read the same sky pixel (`hcons`), and the two detectors of
a pair are orthogonal (`horth`), so the step adds a consistent multiple of the
sky values to each running sum. -/
lemma rt_step_inv (cosF sinF : ℚ → ℚ) (skyI skyQ skyU : ℤ → ℚ)
    (samples : List RTsample)
    (hcons : ∀ s1 ∈ samples, ∀ s2 ∈ samples, s1.pix = s2.pix → s1.g = s2.g)
    (horth : ∀ s ∈ samples, cosF (2 * s.aBot) = -cosF (2 * s.aTop) ∧
      sinF (2 * s.aBot) = -sinF (2 * s.aTop))
    (m : OutputSkyMap) (s' : RTsample) (hs' : s' ∈ samples)
    (hInv : RTInv skyI skyQ skyU samples m) :
    RTInv skyI skyQ skyU samples
      (tod2map_step cosF sinF m (rtKernelSample cosF sinF skyI skyQ skyU s')) := by
  intro s hs hpix
  obtain ⟨hd, hdc, hds⟩ := hInv s hs hpix
  by_cases hp' : 0 ≤ s'.pix
  · rw [tod2map_step, if_pos ⟨by simp [rtKernelSample], by simpa [rtKernelSample] using hp'⟩]
    by_cases heq : s.pix.toNat = s'.pix.toNat
    · have hpixeq : s.pix = s'.pix := by
        rw [← Int.toNat_of_nonneg hpix, ← Int.toNat_of_nonneg hp', heq]
      have hg : s.g = s'.g := hcons s hs s' hs' hpixeq
      obtain ⟨hcos, hsin⟩ := horth s' hs'
      rw [heq, hg] at hd hdc hds
      simp only [rtKernelSample, map2todSignal, hcos, hsin]
      rw [heq, hg]
      simp only [Function.update_same]
      refine ⟨?_, ?_, ?_⟩
      · rw [hd]; ring
      · rw [hdc]; ring
      · rw [hds]; ring
    · simp only [rtKernelSample, Function.update_noteq heq]
      exact ⟨hd, hdc, hds⟩
  · rw [tod2map_step, if_neg (by simp [rtKernelSample]; omega)]
    exact ⟨hd, hdc, hds⟩

/-- Folding the kernel over any sublist of the round-trip samples preserves
the invariant. -/
lemma rt_fold_inv (cosF sinF : ℚ → ℚ) (skyI skyQ skyU : ℤ → ℚ)
    (samples : List RTsample)
    (hcons : ∀ s1 ∈ samples, ∀ s2 ∈ samples, s1.pix = s2.pix → s1.g = s2.g)
    (horth : ∀ s ∈ samples, cosF (2 * s.aBot) = -cosF (2 * s.aTop) ∧
      sinF (2 * s.aBot) = -sinF (2 * s.aTop))
    (l : List RTsample) (hsub : ∀ x ∈ l, x ∈ samples) (m : OutputSkyMap)
    (hInv : RTInv skyI skyQ skyU samples m) :
    RTInv skyI skyQ skyU samples
      (List.foldl (tod2map_step cosF sinF) m
        (l.map (rtKernelSample cosF sinF skyI skyQ skyU))) := by
  induction l generalizing m with
  | nil => simpa using hInv
  | cons x xs ih =>
    simp only [List.map_cons, List.foldl_cons]
    exact ih (fun y hy => hsub y (List.mem_cons_of_mem _ hy)) _
      (rt_step_inv cosF sinF skyI skyQ skyU samples hcons horth m x
        (hsub x (List.mem_cons_self _ _)) hInv)

/-- Claim C1, amended: generating the pair-differenced timestreams from an
input sky with `map2tod` signals (orthogonal detector pairs, unit per-pair
weights) and accumulating all of them into an empty `OutputSkyMap` recovers,
at the pixel of every sample, the input intensity wherever the hit weight is
nonzero, and the input `Q`/`U` wherever the accumulated polarization
determinant clears the singularity threshold.  Samples landing in a common
accumulator pixel must read a common sky pixel; the second conjunct shows the
healpix pixel indexer guarantees this by construction (for the flat indexer
it is an assumption on the re-gridding). -/
theorem claim_C1_roundtrip_amended (cosF sinF : ℚ → ℚ)
    (skyI skyQ skyU : ℤ → ℚ) (obspix : List ℤ) (samples : List RTsample)
    (hcons : ∀ s1 ∈ samples, ∀ s2 ∈ samples, s1.pix = s2.pix → s1.g = s2.g)
    (horth : ∀ s ∈ samples, cosF (2 * s.aBot) = -cosF (2 * s.aTop) ∧
      sinF (2 * s.aBot) = -sinF (2 * s.aTop)) :
    (∀ s ∈ samples, 0 ≤ s.pix →
      (0 < (roundtrip cosF sinF skyI skyQ skyU obspix samples).w s.pix.toNat →
        get_I (roundtrip cosF sinF skyI skyQ skyU obspix samples) s.pix.toNat =
          skyI s.g) ∧
      (epsF32 ≤
          |testccF (roundtrip cosF sinF skyI skyQ skyU obspix samples)
            s.pix.toNat| →
        (get_QU (roundtrip cosF sinF skyI skyQ skyU obspix samples)).2.1
            s.pix.toNat = skyQ s.g ∧
        (get_QU (roundtrip cosF sinF skyI skyQ skyU obspix samples)).2.2
            s.pix.toNat = skyU s.g)) ∧
    (∀ (obspix2 : List ℤ) (g1 g2 : ℤ), 0 ≤ localIndexHealpix obspix2 g1 →
      localIndexHealpix obspix2 g1 = localIndexHealpix obspix2 g2 →
      g1 = g2) := by
  constructor
  · have hInv : RTInv skyI skyQ skyU samples
        (roundtrip cosF sinF skyI skyQ skyU obspix samples) := by
      rw [roundtrip, tod2map_model]
      refine rt_fold_inv cosF sinF skyI skyQ skyU samples hcons horth samples
        (fun x hx => hx) _ ?_
      intro s hs hpix
      simp [emptyOutputSkyMap]
    intro s hs hpix
    obtain ⟨hd, hdc, hds⟩ := hInv s hs hpix
    constructor
    · intro hw
      show (if 0 < (roundtrip cosF sinF skyI skyQ skyU obspix samples).w
          s.pix.toNat then _ / _ else 0) = skyI s.g
      rw [if_pos hw, hd, mul_div_assoc, div_self (ne_of_gt hw), mul_one]
    · intro hth
      have ht0 : testccF (roundtrip cosF sinF skyI skyQ skyU obspix samples)
          s.pix.toNat ≠ 0 := by
        intro h0
        rw [h0] at hth
        norm_num [epsF32] at hth
      have hidet : idetF (roundtrip cosF sinF skyI skyQ skyU obspix samples)
          s.pix.toNat =
          1 / testccF (roundtrip cosF sinF skyI skyQ skyU obspix samples)
            s.pix.toNat := by
        simp only [idetF]
        rw [if_neg (not_lt.mpr hth), if_pos ht0]
      constructor
      · show idetF _ s.pix.toNat * _ = skyQ s.g
        rw [hidet, hdc, hds]
        have hkey : (roundtrip cosF sinF skyI skyQ skyU obspix samples).ss
              s.pix.toNat *
              (skyQ s.g * (roundtrip cosF sinF skyI skyQ skyU obspix
                samples).cc s.pix.toNat +
               skyU s.g * (roundtrip cosF sinF skyI skyQ skyU obspix
                samples).cs s.pix.toNat) -
            (roundtrip cosF sinF skyI skyQ skyU obspix samples).cs
              s.pix.toNat *
              (skyQ s.g * (roundtrip cosF sinF skyI skyQ skyU obspix
                samples).cs s.pix.toNat +
               skyU s.g * (roundtrip cosF sinF skyI skyQ skyU obspix
                samples).ss s.pix.toNat) =
            skyQ s.g * testccF (roundtrip cosF sinF skyI skyQ skyU obspix
              samples) s.pix.toNat := by
          rw [testccF]; ring
        rw [hkey, one_div, inv_mul_eq_div, mul_div_assoc, div_self ht0,
          mul_one]
      · show idetF _ s.pix.toNat * _ = skyU s.g
        rw [hidet, hdc, hds]
        have hkey : -(roundtrip cosF sinF skyI skyQ skyU obspix samples).cs
              s.pix.toNat *
              (skyQ s.g * (roundtrip cosF sinF skyI skyQ skyU obspix
                samples).cc s.pix.toNat +
               skyU s.g * (roundtrip cosF sinF skyI skyQ skyU obspix
                samples).cs s.pix.toNat) +
            (roundtrip cosF sinF skyI skyQ skyU obspix samples).cc
              s.pix.toNat *
              (skyQ s.g * (roundtrip cosF sinF skyI skyQ skyU obspix
                samples).cs s.pix.toNat +
               skyU s.g * (roundtrip cosF sinF skyI skyQ skyU obspix
                samples).ss s.pix.toNat) =
            skyU s.g * testccF (roundtrip cosF sinF skyI skyQ skyU obspix
              samples) s.pix.toNat := by
          rw [testccF]; ring
        rw [hkey, one_div, inv_mul_eq_div, mul_div_assoc, div_self ht0,
          mul_one]
  · intro obspix2 g1 g2 h1 heq
    obtain ⟨hlt1, hget1⟩ := localIndexHealpix_nonneg obspix2 g1 h1
    have h2 : 0 ≤ localIndexHealpix obspix2 g2 := heq ▸ h1
    obtain ⟨hlt2, hget2⟩ := localIndexHealpix_nonneg obspix2 g2 h2
    rw [← hget1, ← hget2, heq]

/-- Claim C1, counterexample: the round trip does not reproduce the input
`Q` at every pixel with nonzero hit weight. With a legitimate orthogonal
detector pair, unit weights and input sky `I = U = 0`, `Q = 1`, a pixel hit
by a single sample at polarization angle `0` has hit weight `1 > 0` but a
singular polarization system (`cc*ss - cs*cs = 0`), so the solved `Q` is `0`,
not the input value `1`. -/
theorem claim_C1_counterexample :
    (∀ s ∈ [({ pix := 0, g := 0, aTop := 0, aBot := 1 } : RTsample)],
      (fun q : ℚ => if q = 0 then (1 : ℚ) else -1) (2 * s.aBot) =
        -(fun q : ℚ => if q = 0 then (1 : ℚ) else -1) (2 * s.aTop) ∧
      (fun _ : ℚ => (0 : ℚ)) (2 * s.aBot) =
        -(fun _ : ℚ => (0 : ℚ)) (2 * s.aTop)) ∧
    0 < (roundtrip (fun q => if q = 0 then 1 else -1) (fun _ => 0)
        (fun _ => 0) (fun _ => 1) (fun _ => 0) [0]
        [{ pix := 0, g := 0, aTop := 0, aBot := 1 }]).w 0 ∧
    (0 : ℤ) < (roundtrip (fun q => if q = 0 then 1 else -1) (fun _ => 0)
        (fun _ => 0) (fun _ => 1) (fun _ => 0) [0]
        [{ pix := 0, g := 0, aTop := 0, aBot := 1 }]).nhit 0 ∧
    (get_QU (roundtrip (fun q => if q = 0 then 1 else -1) (fun _ => 0)
        (fun _ => 0) (fun _ => 1) (fun _ => 0) [0]
        [{ pix := 0, g := 0, aTop := 0, aBot := 1 }])).2.1 0 = 0 ∧
    (fun _ : ℤ => (1 : ℚ)) (0 : ℤ) ≠ 0 := by
  refine ⟨?_, ?_, ?_, ?_, ?_⟩
  · intro s hs
    rw [List.mem_singleton] at hs
    subst hs
    constructor <;> norm_num
  · norm_num [roundtrip, tod2map_model, tod2map_step, rtKernelSample,
      map2todSignal, emptyOutputSkyMap, Function.update]
  · norm_num [roundtrip, tod2map_model, tod2map_step, rtKernelSample,
      map2todSignal, emptyOutputSkyMap, Function.update]
  · norm_num [get_QU, idetF, testccF, epsF32, roundtrip, tod2map_model,
      tod2map_step, rtKernelSample, map2todSignal, emptyOutputSkyMap,
      Function.update]
  · norm_num

/-- Claim C1, witness for the amended round-trip theorem: a concrete
two-sample orthogonal-pair scan over the observed-pixel set `[7]`. -/
theorem claim_C1_roundtrip_amended_witness :
    (∀ s1 ∈ [({ pix := 0, g := 7, aTop := 0, aBot := 1 } : RTsample),
        { pix := 0, g := 7, aTop := 1, aBot := 0 }],
      ∀ s2 ∈ [({ pix := 0, g := 7, aTop := 0, aBot := 1 } : RTsample),
        { pix := 0, g := 7, aTop := 1, aBot := 0 }],
      s1.pix = s2.pix → s1.g = s2.g) ∧
    (∀ s ∈ [({ pix := 0, g := 7, aTop := 0, aBot := 1 } : RTsample),
        { pix := 0, g := 7, aTop := 1, aBot := 0 }],
      (fun q : ℚ => if q = 0 then (1 : ℚ) else -1) (2 * s.aBot) =
        -(fun q : ℚ => if q = 0 then (1 : ℚ) else -1) (2 * s.aTop) ∧
      (fun q : ℚ => if q = 0 then (0 : ℚ) else 0) (2 * s.aBot) =
        -(fun q : ℚ => if q = 0 then (0 : ℚ) else 0) (2 * s.aTop)) ∧
    (∀ s ∈ [({ pix := 0, g := 7, aTop := 0, aBot := 1 } : RTsample),
        { pix := 0, g := 7, aTop := 1, aBot := 0 }], 0 ≤ s.pix →
      (0 < (roundtrip (fun q => if q = 0 then 1 else -1)
          (fun q => if q = 0 then 0 else 0) (fun _ => 3) (fun _ => 5)
          (fun _ => 0) [7]
          [{ pix := 0, g := 7, aTop := 0, aBot := 1 },
           { pix := 0, g := 7, aTop := 1, aBot := 0 }]).w s.pix.toNat →
        get_I (roundtrip (fun q => if q = 0 then 1 else -1)
          (fun q => if q = 0 then 0 else 0) (fun _ => 3) (fun _ => 5)
          (fun _ => 0) [7]
          [{ pix := 0, g := 7, aTop := 0, aBot := 1 },
           { pix := 0, g := 7, aTop := 1, aBot := 0 }]) s.pix.toNat =
          (fun _ : ℤ => (3 : ℚ)) s.g) ∧
      (epsF32 ≤ |testccF (roundtrip (fun q => if q = 0 then 1 else -1)
          (fun q => if q = 0 then 0 else 0) (fun _ => 3) (fun _ => 5)
          (fun _ => 0) [7]
          [{ pix := 0, g := 7, aTop := 0, aBot := 1 },
           { pix := 0, g := 7, aTop := 1, aBot := 0 }]) s.pix.toNat| →
        (get_QU (roundtrip (fun q => if q = 0 then 1 else -1)
          (fun q => if q = 0 then 0 else 0) (fun _ => 3) (fun _ => 5)
          (fun _ => 0) [7]
          [{ pix := 0, g := 7, aTop := 0, aBot := 1 },
           { pix := 0, g := 7, aTop := 1, aBot := 0 }])).2.1 s.pix.toNat =
            (fun _ : ℤ => (5 : ℚ)) s.g ∧
        (get_QU (roundtrip (fun q => if q = 0 then 1 else -1)
          (fun q => if q = 0 then 0 else 0) (fun _ => 3) (fun _ => 5)
          (fun _ => 0) [7]
          [{ pix := 0, g := 7, aTop := 0, aBot := 1 },
           { pix := 0, g := 7, aTop := 1, aBot := 0 }])).2.2 s.pix.toNat =
            (fun _ : ℤ => (0 : ℚ)) s.g)) := by
  have hcons : ∀ s1 ∈ [({ pix := 0, g := 7, aTop := 0, aBot := 1 } : RTsample),
      { pix := 0, g := 7, aTop := 1, aBot := 0 }],
      ∀ s2 ∈ [({ pix := 0, g := 7, aTop := 0, aBot := 1 } : RTsample),
        { pix := 0, g := 7, aTop := 1, aBot := 0 }],
      s1.pix = s2.pix → s1.g = s2.g := by
    intro s1 h1 s2 h2 _
    simp only [List.mem_cons, List.mem_singleton, List.not_mem_nil,
      or_false] at h1 h2
    rcases h1 with h1 | h1 <;> rcases h2 with h2 | h2 <;> subst h1 <;>
      subst h2 <;> rfl
  have horth : ∀ s ∈ [({ pix := 0, g := 7, aTop := 0, aBot := 1 } : RTsample),
      { pix := 0, g := 7, aTop := 1, aBot := 0 }],
      (fun q : ℚ => if q = 0 then (1 : ℚ) else -1) (2 * s.aBot) =
        -(fun q : ℚ => if q = 0 then (1 : ℚ) else -1) (2 * s.aTop) ∧
      (fun q : ℚ => if q = 0 then (0 : ℚ) else 0) (2 * s.aBot) =
        -(fun q : ℚ => if q = 0 then (0 : ℚ) else 0) (2 * s.aTop) := by
    intro s hs
    simp only [List.mem_cons, List.mem_singleton, List.not_mem_nil,
      or_false] at hs
    rcases hs with hs | hs <;> subst hs <;> constructor <;> norm_num
  exact ⟨hcons, horth,
    (claim_C1_roundtrip_amended (fun q => if q = 0 then 1 else -1)
      (fun q => if q = 0 then 0 else 0) (fun _ => 3) (fun _ => 5)
      (fun _ => 0) [7]
      [{ pix := 0, g := 7, aTop := 0, aBot := 1 },
       { pix := 0, g := 7, aTop := 1, aBot := 0 }] hcons horth).1⟩

end S4cmb

